import Mathlib

/-!
Shallow embedding of the icon-asset compiler of
`src/tooling/cli/src/icon.rs` (the `tauri icon` command).

Modelling conventions:
* Pixel buffers are `Image` values (RGBA8 channels as `Nat`, row major).
* File-system paths are lists of components; `p.join(c)` is `p ++ [c]`.
* The run is modelled as the ordered list of file writes it performs
  together with its final result; directory creation produces no file and
  is therefore not an event of the trace.
* The Lanczos3 resampler and the PNG compressors of the `image` crate are
  floating-point / compression externals; they enter the model as an
  abstract `Codecs` record, and the theorems are proved for every
  instantiation of it.  `trivialCodecs` is a concrete instantiation used
  only to evaluate the model on closed inputs.
* Rust `f32` arithmetic of the iOS size table is modelled over `ℚ`; every
  value that actually occurs (`20, 29, 40, 60, 76, 83.5, 512` and their
  products with the multipliers `1, 2, 3`) is exactly representable in
  `f32`, so the rational model is exact on these inputs.
-/

namespace TauriIcon

/-- RGBA8 pixel, models `image::Rgba<u8>`; channel values live in 0..255. -/
structure Rgba where
  r : Nat
  g : Nat
  b : Nat
  a : Nat
deriving DecidableEq, Repr

/-- Canonical RGBA8 pixel buffer, models `image::DynamicImage::ImageRgba8`
(width, height, and the row-major pixel list). -/
structure Image where
  width : Nat
  height : Nat
  pixels : List Rgba
deriving DecidableEq, Repr

/-- A file-system path as a list of components. -/
abbrev Path := List String

/-- A byte stream (each entry meant to be one byte). -/
abbrev Bytes := List Nat

/-- Raw RGBA byte view of a buffer; models `DynamicImage::as_bytes`
(four bytes per pixel, in r, g, b, a order). -/
def imageBytes (img : Image) : Bytes :=
  img.pixels.flatMap (fun p => [p.r, p.g, p.b, p.a])

/-- Abstract numeric externals of the pipeline:
`resize_exact img n` stands for `img.resize_exact(n, n, FilterType::Lanczos3)`
of the `image` crate; `write_png data n` stands for the `write_png` helper of
`icon.rs` (PNG encoding of an `n` by `n` RGBA8 buffer with
`CompressionType::Best` and adaptive filtering); `png_enc_default data n`
stands for PNG encoding with `PngEncoder::new` default settings, which is
what `image::codecs::ico::IcoFrame::as_png` applies internally.  All claims
are proved for every instantiation of this record. -/
structure Codecs where
  resize_exact : Image → Nat → Image
  write_png : Bytes → Nat → Bytes
  png_enc_default : Bytes → Nat → Bytes

/-- Concrete instantiation of `Codecs` used to evaluate the model on closed
inputs (the theorems themselves hold for every instantiation). -/
def trivialCodecs : Codecs where
  resize_exact := fun _ n => ⟨n, n, []⟩
  write_png := fun data _ => data
  png_enc_default := fun data _ => data

/-- Truncation toward zero, models the Rust numeric cast `as u32` / `as u8`
for the nonnegative values arising in this program. -/
def truncQ (q : ℚ) : Nat := (⌊q⌋).toNat

/-- Value of one hexadecimal digit character. -/
def hexVal (c : Char) : Option Nat :=
  if c.isDigit then some (c.toNat - 48)
  else if 97 ≤ c.toLower.toNat ∧ c.toLower.toNat ≤ 102 then
    some (c.toLower.toNat - 87)
  else none

/-- A color in CSS sRGB space with components in 0..1, models
`css_color::Srgb`. -/
structure Srgb where
  red : ℚ
  green : ℚ
  blue : ℚ
  alpha : ℚ
deriving DecidableEq, Repr

/-- Models `css_color::Srgb::from_str` restricted to the hexadecimal color
forms of CSS Color Module Level 4 (`#RGB`, `#RGBA`, `#RRGGBB`, `#RRGGBBAA`);
every string outside that grammar is rejected here, exactly as every
malformed color string is rejected by the crate.  Named and functional
color forms accepted by the crate are not modelled; no claim depends on
them. -/
def cssParseSrgbHex (s : String) : Option Srgb :=
  match s.toList with
  | '#' :: ds =>
    match ds.mapM hexVal with
    | none => none
    | some vs =>
      match vs with
      | [r, g, b] =>
        some ⟨(17 * r : Nat) / 255, (17 * g : Nat) / 255, (17 * b : Nat) / 255, 1⟩
      | [r, g, b, a] =>
        some ⟨(17 * r : Nat) / 255, (17 * g : Nat) / 255, (17 * b : Nat) / 255,
          (17 * a : Nat) / 255⟩
      | [r1, r2, g1, g2, b1, b2] =>
        some ⟨(16 * r1 + r2 : Nat) / 255, (16 * g1 + g2 : Nat) / 255,
          (16 * b1 + b2 : Nat) / 255, 1⟩
      | [r1, r2, g1, g2, b1, b2, a1, a2] =>
        some ⟨(16 * r1 + r2 : Nat) / 255, (16 * g1 + g2 : Nat) / 255,
          (16 * b1 + b2 : Nat) / 255, (16 * a1 + a2 : Nat) / 255⟩
      | _ => none
  | _ => none

/-- Conversion of a parsed CSS color to an RGBA8 quadruple, models lines
70..77 of `icon.rs`: each component is multiplied by 255 and cast with
`as u8` (truncation).  Exact over `ℚ`; for the concrete colors used by the
claims (pure hexadecimal values such as `#FF0000` and the default `#fff`)
the `f32` computation of the source is exact as well. -/
def srgbToRgba (c : Srgb) : Rgba :=
  ⟨truncQ (c.red * 255), truncQ (c.green * 255), truncQ (c.blue * 255),
    truncQ (c.alpha * 255)⟩

/-- Alpha blending of one foreground pixel over one background pixel,
models `image::Pixel::blend` for `Rgba<u8>` (src-over compositing computed
on normalized channels, results scaled back by 255 and cast with
truncation).  The source computes in `f32`; the model computes in `ℚ`.  For
the inputs the claims use (a fully opaque background produced from a pure
hexadecimal color and a fully transparent foreground) every intermediate
`f32` operation of the source is exact, so the rational model agrees with
it byte for byte. -/
def blend (bg fg : Rgba) : Rgba :=
  let maxT : ℚ := 255
  let bgA : ℚ := (bg.a : ℚ) / maxT
  let fgA : ℚ := (fg.a : ℚ) / maxT
  let alphaFinal := bgA + fgA - bgA * fgA
  if alphaFinal = 0 then bg
  else
    let outRA := ((fg.r : ℚ) / maxT) * fgA + ((bg.r : ℚ) / maxT) * bgA * (1 - fgA)
    let outGA := ((fg.g : ℚ) / maxT) * fgA + ((bg.g : ℚ) / maxT) * bgA * (1 - fgA)
    let outBA := ((fg.b : ℚ) / maxT) * fgA + ((bg.b : ℚ) / maxT) * bgA * (1 - fgA)
    ⟨truncQ (maxT * (outRA / alphaFinal)),
     truncQ (maxT * (outGA / alphaFinal)),
     truncQ (maxT * (outBA / alphaFinal)),
     truncQ (maxT * alphaFinal)⟩

/-- Compositing of the source over an opaque background color, models lines
405..410 of `icon.rs`: `ImageBuffer::from_fn` paints every pixel with the
iOS color, then `image::imageops::overlay(bg, source, 0, 0)` blends the
source on top.  Both buffers have identical dimensions and the offset is
zero, so overlay reduces to a per-pixel blend over the whole buffer. -/
def compositeOnColor (color : Rgba) (src : Image) : Image :=
  ⟨src.width, src.height, src.pixels.map (fun p => blend color p)⟩

/-- One planned PNG output, models the `PngEntry` struct of `icon.rs`. -/
structure PngEntry where
  name : String
  size : Nat
  out_path : Path
deriving DecidableEq, Repr

/-- File name of a flat size-named PNG, the Rust format string
produces for example 32x32.png. -/
def pngName (size : Nat) : String :=
  Nat.repr size ++ "x" ++ Nat.repr size ++ ".png"

/-- Desktop catalog, models the `desktop_entries` helper of `icon.rs`
(sizes 32, 128, 256, 512 with the two special-cased file names). -/
def desktop_entries (out_dir : Path) : List PngEntry :=
  [32, 128, 256, 512].map (fun size =>
    let file_name :=
      match size with
      | 256 => "128x128@2x.png"
      | 512 => "icon.png"
      | _ => pngName size
    { name := file_name, size := size, out_path := out_dir ++ [file_name] })

/-- One Android density bucket of the catalog, models the local
`AndroidEntry` struct of `icon.rs`. -/
structure AndroidEntry where
  name : String
  size : Nat
  foreground_size : Nat
deriving DecidableEq, Repr

/-- The five Android density buckets exactly as listed in `icon.rs`. -/
def androidTargets : List AndroidEntry :=
  [⟨"hdpi", 49, 162⟩,
   ⟨"mdpi", 48, 108⟩,
   ⟨"xhdpi", 96, 216⟩,
   ⟨"xxhdpi", 144, 324⟩,
   ⟨"xxxhdpi", 192, 432⟩]

/-- Android catalog, models the `android_entries` helper of `icon.rs`:
for each density bucket a `mipmap-` directory is created and three entries
are pushed, in source order foreground, round, launcher. -/
def android_entries (out_dir : Path) : List PngEntry :=
  androidTargets.flatMap (fun t =>
    let folder_name := "mipmap-" ++ t.name
    let out_folder := out_dir ++ [folder_name]
    [{ name := folder_name ++ "/" ++ "ic_launcher_foreground.png",
       size := t.foreground_size,
       out_path := out_folder ++ ["ic_launcher_foreground.png"] },
     { name := folder_name ++ "/" ++ "ic_launcher_round.png",
       size := t.size,
       out_path := out_folder ++ ["ic_launcher_round.png"] },
     { name := folder_name ++ "/" ++ "ic_launcher.png",
       size := t.size,
       out_path := out_folder ++ ["ic_launcher.png"] }])

/-- The directories the Android catalog creates (`create_dir_all` per
density bucket in `android_entries` of `icon.rs`). -/
def android_created_dirs (out_dir : Path) : List Path :=
  androidTargets.map (fun t => out_dir ++ ["mipmap-" ++ t.name])

/-- One iOS size-table row, models the local `IosEntry` struct of
`icon.rs`: a nominal point size (an `f32` in the source, a rational here),
the list of integer scale multipliers, and whether one extra 2x variant is
generated. -/
structure IosEntry where
  size : ℚ
  multipliers : List Nat
  has_extra : Bool
deriving DecidableEq, Repr

/-- The iOS size table exactly as listed in `icon.rs` (83.5 is 167/2). -/
def iosTargets : List IosEntry :=
  [⟨20, [1, 2, 3], true⟩,
   ⟨29, [1, 2, 3], true⟩,
   ⟨40, [1, 2, 3], true⟩,
   ⟨60, [2, 3], false⟩,
   ⟨76, [1, 2], false⟩,
   ⟨167 / 2, [2], false⟩,
   ⟨512, [2], false⟩]

/-- Decimal rendering of an iOS point size, models the Rust `Display` of
`f32` restricted to the values of the iOS table: integral values print
with no fractional part and 83.5 prints as 83.5. -/
def fmtF32 (q : ℚ) : String :=
  if q = 167 / 2 then "83.5" else Nat.repr (truncQ q)

/-- The size fragment of an iOS file name, models the `size_str` binding of
`icon.rs` (512 is special-cased to the bare string 512). -/
def sizeStr (q : ℚ) : String :=
  if q = 512 then "512" else fmtF32 q ++ "x" ++ fmtF32 q

/-- iOS catalog, models the `ios_entries` helper of `icon.rs`: per table
row, first the optional extra 2x variant, then one entry per multiplier;
each pixel size is the point size times the multiplier cast with `as u32`
(truncation toward zero). -/
def ios_entries (out_dir : Path) : List PngEntry :=
  iosTargets.flatMap (fun t =>
    let sstr := sizeStr t.size
    (if t.has_extra then
      let name := "AppIcon-" ++ sstr ++ "@2x-1.png"
      [{ name := name, size := truncQ (t.size * 2), out_path := out_dir ++ [name] }]
     else []) ++
    t.multipliers.map (fun m =>
      let name := "AppIcon-" ++ sstr ++ "@" ++ Nat.repr m ++ "x.png"
      { name := name, size := truncQ (t.size * (m : ℚ)), out_path := out_dir ++ [name] }))

/-- One frame of a Windows `.ico` container as produced by
`image::codecs::ico::IcoFrame`.  The crate stores every frame it can build
as a PNG-compressed frame: its only two constructors are `as_png`, which
encodes raw pixel bytes as PNG, and `with_encoded`, which takes bytes that
already are a PNG stream.  `compressed` records whether the frame body
written into the container is a compressed (PNG) stream rather than an
uncompressed bitmap. -/
structure IcoFrame where
  size : Nat
  data : Bytes
  compressed : Bool
deriving DecidableEq, Repr

/-- Models `IcoFrame::with_encoded(buf, size, size, Rgba8)` of the `image`
crate: the given bytes must already be an encoded PNG stream and are stored
as the compressed frame body. -/
def IcoFrame.with_encoded (buf : Bytes) (size : Nat) : IcoFrame :=
  { size := size, data := buf, compressed := true }

/-- Models `IcoFrame::as_png(buf, size, size, Rgba8)` of the `image` crate:
the raw pixel bytes are encoded as PNG with the default encoder settings
and the resulting PNG stream is stored as the compressed frame body.  The
crate has no constructor producing an uncompressed bitmap frame. -/
def IcoFrame.as_png (c : Codecs) (buf : Bytes) (size : Nat) : IcoFrame :=
  { size := size, data := c.png_enc_default buf size, compressed := true }

/-- Models the `ico` function of `icon.rs` (lines 169..199): for each of
the six sizes the source is resampled; for 256 the buffer is PNG-encoded by
`write_png` and wrapped with `IcoFrame::with_encoded`, for every other size
the raw bytes are handed to `IcoFrame::as_png`. -/
def icoFrames (c : Codecs) (source : Image) : List IcoFrame :=
  [32, 16, 24, 48, 64, 256].map (fun size =>
    let image := c.resize_exact source size
    if size = 256 then
      IcoFrame.with_encoded (c.write_png (imageBytes image) size) size
    else
      IcoFrame.as_png c (imageBytes image) size)

/-- One row of the embedded ICNS size table, models the `IcnsEntry` struct
of `icon.rs` (deserialized from the embedded `helpers/icns.json` asset,
which is not part of the excerpt; the claims quantify over the table). -/
structure IcnsEntry where
  size : Nat
  ostype : String
deriving DecidableEq, Repr

/-- The OSType codes the `icns` crate recognizes: models the domain of
`icns::IconType::from_ostype` (every other code yields `None`). -/
def knownOSTypes : List String :=
  ["is32", "s8mk", "il32", "l8mk", "ih32", "h8mk", "it32", "t8mk",
   "icp4", "icp5", "icp6", "ic07", "ic08", "ic09", "ic10",
   "ic11", "ic12", "ic13", "ic14"]

/-- Models `entry.ostype.parse()` composed with
`icns::IconType::from_ostype` in `icon.rs` line 155: parsing an `OSType`
succeeds only for a four-byte code, and `from_ostype` recognizes only the
codes of `knownOSTypes` (all of which are four bytes), so the composition
succeeds exactly on the known codes; on failure the source unwraps and the
run aborts. -/
def iconTypeFromOSType (s : String) : Option String :=
  if s ∈ knownOSTypes then some s else none

/-- Pixel edge length the `icns` crate expects for each icon type; models
`icns::IconType::pixel_width` (equal to `pixel_height` for all types).
`add_icon_with_type` rejects an image whose dimensions disagree with the
type. -/
def osTypePixelSize (s : String) : Nat :=
  if s = "is32" then 16 else if s = "s8mk" then 16
  else if s = "il32" then 32 else if s = "l8mk" then 32
  else if s = "ih32" then 48 else if s = "h8mk" then 48
  else if s = "it32" then 128 else if s = "t8mk" then 128
  else if s = "icp4" then 16 else if s = "icp5" then 32
  else if s = "icp6" then 64 else if s = "ic07" then 128
  else if s = "ic08" then 256 else if s = "ic09" then 512
  else if s = "ic10" then 1024 else if s = "ic11" then 32
  else if s = "ic12" then 64 else if s = "ic13" then 256
  else if s = "ic14" then 512 else 0

/-- Models the element-building loop of the `icns` function of `icon.rs`
(lines 142..158): for each table row the source is resampled to the row
size and PNG-encoded, the OSType is parsed (an unknown or malformed code
aborts, modelling the `unwrap` panic), and the element is added to the
family tagged with the code; `add_icon_with_type` fails if the image
dimensions disagree with the icon type, which the source surfaces through
its error context.  Modelled from the spec: the element body is the PNG
stream of the resampled source (spec section 4.6); the embedded
`helpers/icns.json` table is a parameter because the asset is not in the
excerpt. -/
def icnsBuild (c : Codecs) (src : Image) :
    List (String × IcnsEntry) → Except String (List (String × Bytes))
  | [] => .ok []
  | (name, e) :: rest =>
    let buf := c.write_png (imageBytes (c.resize_exact src e.size)) e.size
    match iconTypeFromOSType e.ostype with
    | none => .error ("unknown or malformed ostype " ++ e.ostype)
    | some ty =>
      if e.size = osTypePixelSize ty then
        match icnsBuild c src rest with
        | .error m => .error m
        | .ok elems => .ok ((ty, buf) :: elems)
      else .error ("cannot add " ++ name ++ " to the icns family")

/-- The payload of one written file. -/
inductive FileData where
  | png (bytes : Bytes)
  | ico (frames : List IcoFrame)
  | icns (elements : List (String × Bytes))
deriving DecidableEq, Repr

/-- One file write performed by the run: destination path and payload. -/
structure WriteEv where
  path : Path
  data : FileData
deriving DecidableEq, Repr

/-- Models `resize_and_save_png` of `icon.rs` (lines 421..426): resample
the image to the requested square size, PNG-encode it with `write_png`,
and write the stream to the given file path. -/
def resize_and_save_png (c : Codecs) (source : Image) (size : Nat)
    (file_path : Path) : WriteEv :=
  { path := file_path,
    data := .png (c.write_png (imageBytes (c.resize_exact source size)) size) }

/-- Models the `appx` function of `icon.rs` (lines 120..132): the store
logo at size 50 followed by the nine square logos. -/
def appxWrites (c : Codecs) (source : Image) (out_dir : Path) : List WriteEv :=
  resize_and_save_png c source 50 (out_dir ++ ["StoreLogo.png"]) ::
  [30, 44, 71, 89, 107, 142, 150, 284, 310].map (fun size =>
    resize_and_save_png c source size
      (out_dir ++ ["Square" ++ Nat.repr size ++ "x" ++ Nat.repr size ++ "Logo.png"]))

/-- The surrounding Tauri project configuration as read by the full-mode
PNG stage (`get_tauri_config` and the Android config in `icon.rs` lines
364..374).  Only the snake-case application name is consumed by `icon.rs`,
to build the generated Android project path. -/
structure Config where
  appNameSnake : String
deriving DecidableEq, Repr

/-- The Android output root chosen by `icon.rs` lines 375..385: the
generated native-project resource directory
`../gen/android/<app_name_snake>/app/src/main/res` when it exists,
otherwise a fresh `android` directory under the icon output root.
`fsExists` models the `Path::exists` probe. -/
def androidOutDir (out_dir : Path) (cfg : Config) (fsExists : Path → Bool) : Path :=
  let android_out := out_dir.dropLast ++
    ["gen", "android", cfg.appNameSnake, "app", "src", "main", "res"]
  if fsExists android_out then android_out else out_dir ++ ["android"]

/-- The iOS output root chosen by `icon.rs` lines 388..398: the generated
`../gen/apple/Assets.xcassets/AppIcon.appiconset` directory when it
exists, otherwise a fresh `ios` directory under the icon output root. -/
def iosOutDir (out_dir : Path) (fsExists : Path → Bool) : Path :=
  let ios_out := out_dir.dropLast ++
    ["gen", "apple", "Assets.xcassets", "AppIcon.appiconset"]
  if fsExists ios_out then ios_out else out_dir ++ ["ios"]

/-- Models the `png` function of `icon.rs` (lines 203..418): the desktop
and Android catalog entries are resampled from the source and written;
then the source is composited over the iOS background color and the iOS
catalog entries are resampled from the composited image and written. -/
def pngStage (c : Codecs) (source : Image) (out_dir : Path) (ios_color : Rgba)
    (cfg : Config) (fsExists : Path → Bool) : List WriteEv :=
  let entries := desktop_entries out_dir ++
    android_entries (androidOutDir out_dir cfg fsExists)
  let composited := compositeOnColor ios_color source
  entries.map (fun e => resize_and_save_png c source e.size e.out_path) ++
  (ios_entries (iosOutDir out_dir fsExists)).map
    (fun e => resize_and_save_png c composited e.size e.out_path)

/-- Invocation options after `clap` defaulting, models the `Options`
struct of `icon.rs`: the background color string and the custom PNG size
list (`options.png.unwrap_or_default()`, so `[]` means no custom sizes and
selects full mode). -/
structure Options where
  iosColor : String
  pngSizes : List Nat
deriving DecidableEq, Repr

instance {ε α : Type} [DecidableEq ε] [DecidableEq α] :
    DecidableEq (Except ε α) := fun x y =>
  match x, y with
  | .ok a, .ok b =>
    if h : a = b then isTrue (congrArg Except.ok h)
    else isFalse (fun hh => h (by cases hh; rfl))
  | .error a, .error b =>
    if h : a = b then isTrue (congrArg Except.error h)
    else isFalse (fun hh => h (by cases hh; rfl))
  | .ok _, .error _ => isFalse (fun hh => by cases hh)
  | .error _, .ok _ => isFalse (fun hh => by cases hh)

/-- Outcome of one run: the ordered file writes it performed and its final
result (an error models both a returned `Err` and a panic, each of which
aborts the run). -/
structure RunOut where
  writes : List WriteEv
  result : Except String Unit
deriving DecidableEq, Repr

/-- Models the `command` function of `icon.rs` (lines 65..118), the
orchestrator.  In order: the iOS color string is parsed (failure aborts
with the `failed to parse iOS color` error); the output directory is
created (no file write); the source is decoded (`decoded` is the decode
result; failure aborts); a non-square source panics before any write; then
either the full pipeline (appx, icns, ico, png stage — an icns failure
aborts after the appx files were already written) or, when a custom size
list was given, one flat size-named PNG per requested size at the output
root, in the requested order.  `parseSrgb` abstracts
`css_color::Srgb::from_str`; `table` is the embedded ICNS size table. -/
def command (c : Codecs) (parseSrgb : String → Option Srgb) (cfg : Config)
    (fsExists : Path → Bool) (table : List (String × IcnsEntry))
    (out_dir : Path) (opts : Options) (decoded : Option Image) : RunOut :=
  match parseSrgb opts.iosColor with
  | none => { writes := [], result := .error "failed to parse iOS color" }
  | some srgb =>
    let ios_color := srgbToRgba srgb
    match decoded with
    | none => { writes := [], result := .error "Can not read and decode source image" }
    | some source =>
      if source.height ≠ source.width then
        { writes := [], result := .error "Source image must be square" }
      else if opts.pngSizes.isEmpty then
        let appxW := appxWrites c source out_dir
        match icnsBuild c source table with
        | .error m =>
          { writes := appxW, result := .error ("Failed to generate .icns file: " ++ m) }
        | .ok elems =>
          { writes := appxW ++
              [{ path := out_dir ++ ["icon.icns"], data := .icns elems },
               { path := out_dir ++ ["icon.ico"], data := .ico (icoFrames c source) }] ++
              pngStage c source out_dir ios_color cfg fsExists,
            result := .ok () }
      else
        { writes := opts.pngSizes.map (fun size =>
            resize_and_save_png c source size (out_dir ++ [pngName size])),
          result := .ok () }

/-! Concrete fixtures used by the closed witness and counterexample
statements.  The claim theorems themselves quantify over these inputs. -/

/-- A one-pixel opaque red square source image. -/
def redPixelImage : Image := ⟨1, 1, [⟨255, 0, 0, 255⟩]⟩

/-- A two-by-two square source image whose pixels are all fully
transparent (alpha zero) with arbitrary color channels. -/
def transparentImage : Image :=
  ⟨2, 2, [⟨1, 2, 3, 0⟩, ⟨4, 5, 6, 0⟩, ⟨7, 8, 9, 0⟩, ⟨10, 11, 12, 0⟩]⟩

/-- A non-square (width 1, height 2) image. -/
def nonSquareImage : Image := ⟨1, 2, [⟨0, 0, 0, 255⟩, ⟨0, 0, 0, 255⟩]⟩

/-- A small well-formed ICNS table (known codes, consistent sizes). -/
def sampleIcnsTable : List (String × IcnsEntry) :=
  [("ic09", ⟨512, "ic09"⟩), ("ic07", ⟨128, "ic07"⟩)]

/-- An ICNS table whose second row carries a malformed OSType code. -/
def badIcnsTable : List (String × IcnsEntry) :=
  [("ic09", ⟨512, "ic09"⟩), ("bogus", ⟨64, "bogus"⟩)]

/-- A sample resolved output directory. -/
def sampleOutDir : Path := ["src-tauri", "icons"]

/-- Color-parser fixture for closed statements: accepts the default color
string and the red color string with their true sRGB values, rejects
everything else (the claim theorems quantify over the parser). -/
def fixedParse : String → Option Srgb := fun s =>
  if s = "#fff" then some ⟨1, 1, 1, 1⟩
  else if s = "#FF0000" then some ⟨1, 0, 0, 1⟩
  else none

end TauriIcon

namespace TauriIcon

/-! Helper lemmas about path shapes of the catalogs. -/

theorem mem_appxWrites_path_length (c : Codecs) (src : Image) (d : Path) :
    ∀ w ∈ appxWrites c src d, w.path.length = d.length + 1 := by
  intro w hw
  simp only [appxWrites, List.mem_cons, List.mem_map] at hw
  rcases hw with rfl | ⟨sz, _, rfl⟩ <;> simp [resize_and_save_png]

theorem mem_desktop_entries_path_length (d : Path) :
    ∀ e ∈ desktop_entries d, e.out_path.length = d.length + 1 := by
  intro e he
  simp only [desktop_entries, List.mem_map] at he
  obtain ⟨sz, _, rfl⟩ := he
  simp

theorem mem_android_entries_path_length (d : Path) :
    ∀ e ∈ android_entries d, e.out_path.length = d.length + 2 := by
  intro e he
  simp only [android_entries, List.mem_flatMap, List.mem_cons,
    List.not_mem_nil, or_false] at he
  obtain ⟨t, _, hcase⟩ := he
  rcases hcase with rfl | rfl | rfl <;> simp

theorem mem_ios_entries_path_length (d : Path) :
    ∀ e ∈ ios_entries d, e.out_path.length = d.length + 1 := by
  intro e he
  simp only [ios_entries, List.mem_flatMap, List.mem_append, List.mem_map] at he
  obtain ⟨t, _, hcase⟩ := he
  rcases hcase with h1 | ⟨m, _, rfl⟩
  · cases hx : t.has_extra <;> rw [hx] at h1 <;> simp at h1
    rw [h1]
    simp
  · simp

/-- C10: the iOS background color string is parsed before the mode branch
of `command`, so a malformed color string (one the CSS parser rejects)
makes the run fail with the `failed to parse iOS color` error and no file
is written, for every invocation — in particular in custom mode, where a
non-empty size list was given and the color would never be used. -/
theorem C10_color_parsed_before_mode_branch (c : Codecs)
    (parse : String → Option Srgb) (cfg : Config) (fsEx : Path → Bool)
    (table : List (String × IcnsEntry)) (out_dir : Path) (opts : Options)
    (decoded : Option Image) (hbad : parse opts.iosColor = none) :
    command c parse cfg fsEx table out_dir opts decoded =
      { writes := [], result := .error "failed to parse iOS color" } := by
  simp [command, hbad]

/-- Witness for C10: with the concrete hex parser, the malformed color
string zzz aborts a custom-mode invocation with sizes 16 and 64 before
anything is written. -/
theorem C10_witness :
    command trivialCodecs cssParseSrgbHex ⟨"app"⟩ (fun _ => false)
        sampleIcnsTable sampleOutDir ⟨"zzz", [16, 64]⟩ (some redPixelImage) =
      { writes := [], result := .error "failed to parse iOS color" } :=
  C10_color_parsed_before_mode_branch trivialCodecs cssParseSrgbHex ⟨"app"⟩
    (fun _ => false) sampleIcnsTable sampleOutDir ⟨"zzz", [16, 64]⟩
    (some redPixelImage) (by decide)

/-- C4: when the decoded source image is not square (width different from
height), the run aborts with the fatal `Source image must be square`
panic before any output file is written, whatever the mode (the options,
including the custom size list, are arbitrary). -/
theorem C4_nonsquare_aborts_before_any_write (c : Codecs)
    (parse : String → Option Srgb) (cfg : Config) (fsEx : Path → Bool)
    (table : List (String × IcnsEntry)) (out_dir : Path) (opts : Options)
    (src : Image) (srgb : Srgb) (hparse : parse opts.iosColor = some srgb)
    (hsq : src.width ≠ src.height) :
    command c parse cfg fsEx table out_dir opts (some src) =
      { writes := [], result := .error "Source image must be square" } := by
  have h : src.height ≠ src.width := fun h => hsq h.symm
  simp [command, hparse, h]

/-- Witness for C4: a one-by-two source aborts a full-mode invocation with
no writes, and likewise in custom mode. -/
theorem C4_witness :
    (command trivialCodecs fixedParse ⟨"app"⟩ (fun _ => false) sampleIcnsTable
        sampleOutDir ⟨"#fff", []⟩ (some nonSquareImage) =
      { writes := [], result := .error "Source image must be square" })
  ∧ (command trivialCodecs fixedParse ⟨"app"⟩ (fun _ => false) sampleIcnsTable
        sampleOutDir ⟨"#fff", [16, 64]⟩ (some nonSquareImage) =
      { writes := [], result := .error "Source image must be square" }) :=
  ⟨C4_nonsquare_aborts_before_any_write trivialCodecs fixedParse ⟨"app"⟩
      (fun _ => false) sampleIcnsTable sampleOutDir ⟨"#fff", []⟩
      nonSquareImage ⟨1, 1, 1, 1⟩ rfl (by decide),
   C4_nonsquare_aborts_before_any_write trivialCodecs fixedParse ⟨"app"⟩
      (fun _ => false) sampleIcnsTable sampleOutDir ⟨"#fff", [16, 64]⟩
      nonSquareImage ⟨1, 1, 1, 1⟩ rfl (by decide)⟩

/-- C3: in custom mode (non-empty explicit size list) a valid square
source produces exactly one flat size-named PNG at the output root per
requested size, in the requested order, and every artifact of the run is
such a file — no `.ico`, `.icns`, Android, iOS or Appx artifact is
produced. -/
theorem C3_custom_mode_flat_pngs (c : Codecs) (parse : String → Option Srgb)
    (cfg : Config) (fsEx : Path → Bool) (table : List (String × IcnsEntry))
    (out_dir : Path) (opts : Options) (src : Image) (srgb : Srgb)
    (hparse : parse opts.iosColor = some srgb)
    (hsq : src.width = src.height) (hne : opts.pngSizes ≠ []) :
    (command c parse cfg fsEx table out_dir opts (some src) =
      { writes := opts.pngSizes.map (fun size =>
          { path := out_dir ++ [pngName size],
            data := .png (c.write_png (imageBytes (c.resize_exact src size)) size) }),
        result := .ok () })
  ∧ (∀ w ∈ (command c parse cfg fsEx table out_dir opts (some src)).writes,
      ∃ n ∈ opts.pngSizes, w.path = out_dir ++ [pngName n] ∧
        w.data = .png (c.write_png (imageBytes (c.resize_exact src n)) n)) := by
  have h : ¬ src.height ≠ src.width := fun h => h hsq.symm
  have hrun : command c parse cfg fsEx table out_dir opts (some src) =
      { writes := opts.pngSizes.map (fun size =>
          { path := out_dir ++ [pngName size],
            data := .png (c.write_png (imageBytes (c.resize_exact src size)) size) }),
        result := .ok () } := by
    simp [command, hparse, h, hne, resize_and_save_png]
  refine ⟨hrun, ?_⟩
  intro w hw
  rw [hrun] at hw
  simp only [List.mem_map] at hw
  obtain ⟨n, hn, rfl⟩ := hw
  exact ⟨n, hn, rfl, rfl⟩

/-- Witness for C3: sizes 16 and 64 on the one-pixel square source produce
exactly the two flat files 16x16.png and 64x64.png at the output root, in
that order. -/
theorem C3_witness :
    command trivialCodecs fixedParse ⟨"app"⟩ (fun _ => false) sampleIcnsTable
        ["icons"] ⟨"#fff", [16, 64]⟩ (some redPixelImage) =
      { writes :=
          [{ path := ["icons", "16x16.png"], data := .png [] },
           { path := ["icons", "64x64.png"], data := .png [] }],
        result := .ok () } :=
  ((C3_custom_mode_flat_pngs trivialCodecs fixedParse ⟨"app"⟩ (fun _ => false)
      sampleIcnsTable ["icons"] ⟨"#fff", [16, 64]⟩ redPixelImage ⟨1, 1, 1, 1⟩
      rfl rfl (by decide)).1).trans (by decide)

/-- C2 counterexample: two full-mode invocations that agree on the input
image, the output directory, the (empty) size list and the iOS color
string but differ in the surrounding project configuration (snake-case
application name alpha versus beta) produce different artifact sets: when
the generated Android project directories exist, the Android files are
written below `gen/android/<app_name_snake>/...`, a path read from the
project configuration (the seventeenth write of the two runs lands on two
different paths). -/
theorem C2_counterexample_config_changes_output :
    command trivialCodecs fixedParse ⟨"alpha"⟩ (fun _ => true) sampleIcnsTable
        ["icons"] ⟨"#fff", []⟩ (some redPixelImage) ≠
      command trivialCodecs fixedParse ⟨"beta"⟩ (fun _ => true) sampleIcnsTable
        ["icons"] ⟨"#fff", []⟩ (some redPixelImage) := by
  intro h
  exact absurd
    (congrArg (fun r => (r.writes.get? 16).map (fun w => w.path)) h)
    (by decide)

/-- C2 as amended: an invocation in custom mode (non-empty explicit size
list) never reads the project configuration — two invocations agreeing on
the input image, output directory, size list and iOS color string produce
identical runs whatever their configurations; in full mode the PNG stage
does read the configuration to locate the generated Android project
directory, so only full-mode runs may differ (see the counterexample). -/
theorem C2_custom_mode_config_independent (c : Codecs)
    (parse : String → Option Srgb) (cfg cfg2 : Config) (fsEx : Path → Bool)
    (table : List (String × IcnsEntry)) (out_dir : Path) (opts : Options)
    (decoded : Option Image) (hne : opts.pngSizes ≠ []) :
    command c parse cfg fsEx table out_dir opts decoded =
      command c parse cfg2 fsEx table out_dir opts decoded := by
  cases hp : parse opts.iosColor <;> cases decoded <;>
    simp [command, hp, hne]

/-- Witness for the amended C2: a custom-mode run with sizes 16 and 64 is
identical under the alpha and beta configurations. -/
theorem C2_witness :
    command trivialCodecs fixedParse ⟨"alpha"⟩ (fun _ => true) sampleIcnsTable
        ["icons"] ⟨"#fff", [16, 64]⟩ (some redPixelImage) =
      command trivialCodecs fixedParse ⟨"beta"⟩ (fun _ => true) sampleIcnsTable
        ["icons"] ⟨"#fff", [16, 64]⟩ (some redPixelImage) :=
  C2_custom_mode_config_independent trivialCodecs fixedParse ⟨"alpha"⟩ ⟨"beta"⟩
    (fun _ => true) sampleIcnsTable ["icons"] ⟨"#fff", [16, 64]⟩
    (some redPixelImage) (by decide)

/-- C1 (code bug evidence): evaluating the `ico` frame builder on the
one-pixel square source shows that the container holds frames for exactly
the sizes 32, 16, 24, 48, 64 and 256 and that every frame, the five
non-256 layers included, is stored as a compressed (PNG-encoded) frame:
the source hands the non-256 layers to `IcoFrame::as_png`, which encodes
its raw input as PNG, while its own comment at `icon.rs` line 176 and the
`.ico` format rule require those layers to be uncompressed bitmap frames.
No frame of the run is uncompressed. -/
theorem C1_every_ico_frame_is_png_compressed :
    ((icoFrames trivialCodecs redPixelImage).map
        (fun f => (f.size, f.compressed)) =
      [(32, true), (16, true), (24, true), (48, true), (64, true), (256, true)])
  ∧ ((icoFrames trivialCodecs redPixelImage).all (fun f => f.compressed) = true) := by
  decide

/-- C5: in the iOS catalog, every (target, multiplier) pair yields an
entry whose pixel size is the nominal point size times the multiplier,
truncated toward zero; exactly the table rows marked `has_extra` produce
one extra variant named `@2x-1` at the truncation of twice the point size,
regardless of their multiplier list; and 83.5 points at 2x yields 167
pixels.  The first conjunct lists the complete catalog (name and pixel
size of every entry, in order). -/
theorem C5_ios_pixel_size_truncation (root : Path) :
    ((ios_entries root).map (fun e => (e.name, e.size)) =
      [("AppIcon-20x20@2x-1.png", 40), ("AppIcon-20x20@1x.png", 20),
       ("AppIcon-20x20@2x.png", 40), ("AppIcon-20x20@3x.png", 60),
       ("AppIcon-29x29@2x-1.png", 58), ("AppIcon-29x29@1x.png", 29),
       ("AppIcon-29x29@2x.png", 58), ("AppIcon-29x29@3x.png", 87),
       ("AppIcon-40x40@2x-1.png", 80), ("AppIcon-40x40@1x.png", 40),
       ("AppIcon-40x40@2x.png", 80), ("AppIcon-40x40@3x.png", 120),
       ("AppIcon-60x60@2x.png", 120), ("AppIcon-60x60@3x.png", 180),
       ("AppIcon-76x76@1x.png", 76), ("AppIcon-76x76@2x.png", 152),
       ("AppIcon-83.5x83.5@2x.png", 167),
       ("AppIcon-512@2x.png", 1024)])
  ∧ (∀ t ∈ iosTargets, ∀ m ∈ t.multipliers,
      ("AppIcon-" ++ sizeStr t.size ++ "@" ++ Nat.repr m ++ "x.png",
        truncQ (t.size * (m : ℚ))) ∈
        (ios_entries root).map (fun e => (e.name, e.size)))
  ∧ (∀ t ∈ iosTargets,
      ((ios_entries root).map (fun e => (e.name, e.size))).count
          ("AppIcon-" ++ sizeStr t.size ++ "@2x-1.png", truncQ (t.size * 2)) =
        if t.has_extra then 1 else 0)
  ∧ truncQ ((167 / 2 : ℚ) * 2) = 167 := by
  norm_num [ios_entries, iosTargets, sizeStr, fmtF32, truncQ]
  decide

/-- Witness for C5 at the concrete root directory icons. -/
theorem C5_witness :
    ((ios_entries ["icons"]).map (fun e => (e.name, e.size)) =
      [("AppIcon-20x20@2x-1.png", 40), ("AppIcon-20x20@1x.png", 20),
       ("AppIcon-20x20@2x.png", 40), ("AppIcon-20x20@3x.png", 60),
       ("AppIcon-29x29@2x-1.png", 58), ("AppIcon-29x29@1x.png", 29),
       ("AppIcon-29x29@2x.png", 58), ("AppIcon-29x29@3x.png", 87),
       ("AppIcon-40x40@2x-1.png", 80), ("AppIcon-40x40@1x.png", 40),
       ("AppIcon-40x40@2x.png", 80), ("AppIcon-40x40@3x.png", 120),
       ("AppIcon-60x60@2x.png", 120), ("AppIcon-60x60@3x.png", 180),
       ("AppIcon-76x76@1x.png", 76), ("AppIcon-76x76@2x.png", 152),
       ("AppIcon-83.5x83.5@2x.png", 167),
       ("AppIcon-512@2x.png", 1024)])
  ∧ truncQ ((167 / 2 : ℚ) * 2) = 167 :=
  ⟨(C5_ios_pixel_size_truncation ["icons"]).1,
   (C5_ios_pixel_size_truncation ["icons"]).2.2.2⟩

theorem icnsBuild_ok (c : Codecs) (src : Image)
    (table : List (String × IcnsEntry))
    (h : ∀ e ∈ table, e.2.ostype ∈ knownOSTypes ∧
      e.2.size = osTypePixelSize e.2.ostype) :
    icnsBuild c src table = .ok (table.map (fun e =>
      (e.2.ostype, c.write_png (imageBytes (c.resize_exact src e.2.size)) e.2.size))) := by
  induction table with
  | nil => simp [icnsBuild]
  | cons hd rest ih =>
    obtain ⟨n, e⟩ := hd
    have hhd := h (n, e) (List.mem_cons_self _ _)
    have hrest := ih (fun x hx => h x (List.mem_cons_of_mem _ hx))
    simp only [icnsBuild, iconTypeFromOSType, if_pos hhd.1]
    rw [if_pos hhd.2, hrest]
    simp

theorem icnsBuild_err (c : Codecs) (src : Image)
    (table : List (String × IcnsEntry))
    (hbad : ∃ e ∈ table, e.2.ostype ∉ knownOSTypes) :
    ∃ m, icnsBuild c src table = .error m := by
  induction table with
  | nil => obtain ⟨e, he, _⟩ := hbad; cases he
  | cons hd rest ih =>
    obtain ⟨x, hx, hxbad⟩ := hbad
    obtain ⟨n, e⟩ := hd
    by_cases hknown : e.ostype ∈ knownOSTypes
    · have hxrest : x ∈ rest := by
        rcases List.mem_cons.mp hx with rfl | hr
        · exact absurd hknown hxbad
        · exact hr
      obtain ⟨m, hm⟩ := ih ⟨x, hxrest, hxbad⟩
      by_cases hsz : e.size = osTypePixelSize e.ostype
      · refine ⟨m, ?_⟩
        simp only [icnsBuild, iconTypeFromOSType, if_pos hknown]
        rw [if_pos hsz, hm]
      · refine ⟨"cannot add " ++ n ++ " to the icns family", ?_⟩
        simp only [icnsBuild, iconTypeFromOSType, if_pos hknown]
        rw [if_neg hsz]
    · refine ⟨"unknown or malformed ostype " ++ e.ostype, ?_⟩
      simp only [icnsBuild, iconTypeFromOSType, if_neg hknown]

/-- C7: when every row of the ICNS size table carries a known OSType code
(with the size the `icns` crate expects for it), the family contains
exactly one element per table row, in order, each holding the PNG stream
of the source resampled to the row size and tagged with the row OSType;
when some row carries a malformed or unknown OSType code, building the
family is a fatal error, and a full-mode run aborts right after the appx
stage with only the appx files written — the bad row is not skipped. -/
theorem C7_icns_one_element_per_entry (c : Codecs) (src : Image)
    (table : List (String × IcnsEntry)) :
    ((∀ e ∈ table, e.2.ostype ∈ knownOSTypes ∧
        e.2.size = osTypePixelSize e.2.ostype) →
      icnsBuild c src table = .ok (table.map (fun e =>
        (e.2.ostype, c.write_png (imageBytes (c.resize_exact src e.2.size)) e.2.size))))
  ∧ ((∃ e ∈ table, e.2.ostype ∉ knownOSTypes) →
      ∃ m, icnsBuild c src table = .error m)
  ∧ (∀ (parse : String → Option Srgb) (cfg : Config) (fsEx : Path → Bool)
        (out_dir : Path) (s : String) (srgb : Srgb),
      parse s = some srgb → src.width = src.height →
      (∃ e ∈ table, e.2.ostype ∉ knownOSTypes) →
      ∃ m, command c parse cfg fsEx table out_dir ⟨s, []⟩ (some src) =
        { writes := appxWrites c src out_dir, result := .error m }) := by
  refine ⟨icnsBuild_ok c src table, icnsBuild_err c src table, ?_⟩
  intro parse cfg fsEx out_dir s srgb hparse hsq hbad
  obtain ⟨m, hm⟩ := icnsBuild_err c src table hbad
  have h : ¬ src.height ≠ src.width := fun h => h hsq.symm
  refine ⟨"Failed to generate .icns file: " ++ m, ?_⟩
  simp [command, hparse, h, hm]

/-- Witness for C7: on the two-row well-formed table the family holds
exactly the two tagged elements in table order, and the table with a
malformed second OSType code aborts a full-mode run right after the ten
appx writes. -/
theorem C7_witness :
    (icnsBuild trivialCodecs redPixelImage sampleIcnsTable =
      .ok [("ic09", []), ("ic07", [])])
  ∧ (∃ m, command trivialCodecs fixedParse ⟨"app"⟩ (fun _ => false)
        badIcnsTable sampleOutDir ⟨"#fff", []⟩ (some redPixelImage) =
      { writes := appxWrites trivialCodecs redPixelImage sampleOutDir,
        result := .error m }) :=
  ⟨((C7_icns_one_element_per_entry trivialCodecs redPixelImage
      sampleIcnsTable).1 (by decide)).trans (by decide),
   (C7_icns_one_element_per_entry trivialCodecs redPixelImage
      badIcnsTable).2.2 fixedParse ⟨"app"⟩ (fun _ => false) sampleOutDir
      "#fff" ⟨1, 1, 1, 1⟩ rfl rfl (by decide)⟩

/-- C8: the Android catalog consists of exactly five density directories
(`mipmap-hdpi`, `mipmap-mdpi`, `mipmap-xhdpi`, `mipmap-xxhdpi`,
`mipmap-xxxhdpi`), each holding exactly the three files
`ic_launcher_foreground.png`, `ic_launcher_round.png` and
`ic_launcher.png` (the first conjunct lists every produced path relative
to the output root, with its pixel size); every file sits in one of the
five created directories, and within each density the foreground size
strictly exceeds the launcher and round-launcher size. -/
theorem C8_android_five_densities_three_files (root : Path) :
    ((android_entries root).map (fun e => (e.out_path.drop root.length, e.size)) =
      [(["mipmap-hdpi", "ic_launcher_foreground.png"], 162),
       (["mipmap-hdpi", "ic_launcher_round.png"], 49),
       (["mipmap-hdpi", "ic_launcher.png"], 49),
       (["mipmap-mdpi", "ic_launcher_foreground.png"], 108),
       (["mipmap-mdpi", "ic_launcher_round.png"], 48),
       (["mipmap-mdpi", "ic_launcher.png"], 48),
       (["mipmap-xhdpi", "ic_launcher_foreground.png"], 216),
       (["mipmap-xhdpi", "ic_launcher_round.png"], 96),
       (["mipmap-xhdpi", "ic_launcher.png"], 96),
       (["mipmap-xxhdpi", "ic_launcher_foreground.png"], 324),
       (["mipmap-xxhdpi", "ic_launcher_round.png"], 144),
       (["mipmap-xxhdpi", "ic_launcher.png"], 144),
       (["mipmap-xxxhdpi", "ic_launcher_foreground.png"], 432),
       (["mipmap-xxxhdpi", "ic_launcher_round.png"], 192),
       (["mipmap-xxxhdpi", "ic_launcher.png"], 192)])
  ∧ (android_created_dirs root).length = 5
  ∧ (∀ e ∈ android_entries root, e.out_path.dropLast ∈ android_created_dirs root)
  ∧ (∀ t ∈ androidTargets, t.size < t.foreground_size) := by
  refine ⟨?_, by simp [android_created_dirs, androidTargets], ?_, by decide⟩
  · simp [android_entries, androidTargets, List.append_assoc, List.drop_left]
  · intro e he
    simp only [android_entries, List.mem_flatMap, List.mem_cons,
      List.not_mem_nil, or_false] at he
    obtain ⟨t, ht, hcase⟩ := he
    rcases hcase with rfl | rfl | rfl <;>
      · rw [List.dropLast_concat]
        simp only [android_created_dirs, List.mem_map]
        exact ⟨t, ht, rfl⟩

/-- Witness for C8 at the concrete root directory icons. -/
theorem C8_witness :
    ((android_entries ["icons"]).map (fun e => (e.out_path.drop 1, e.size)) =
      [(["mipmap-hdpi", "ic_launcher_foreground.png"], 162),
       (["mipmap-hdpi", "ic_launcher_round.png"], 49),
       (["mipmap-hdpi", "ic_launcher.png"], 49),
       (["mipmap-mdpi", "ic_launcher_foreground.png"], 108),
       (["mipmap-mdpi", "ic_launcher_round.png"], 48),
       (["mipmap-mdpi", "ic_launcher.png"], 48),
       (["mipmap-xhdpi", "ic_launcher_foreground.png"], 216),
       (["mipmap-xhdpi", "ic_launcher_round.png"], 96),
       (["mipmap-xhdpi", "ic_launcher.png"], 96),
       (["mipmap-xxhdpi", "ic_launcher_foreground.png"], 324),
       (["mipmap-xxhdpi", "ic_launcher_round.png"], 144),
       (["mipmap-xxhdpi", "ic_launcher.png"], 144),
       (["mipmap-xxxhdpi", "ic_launcher_foreground.png"], 432),
       (["mipmap-xxxhdpi", "ic_launcher_round.png"], 192),
       (["mipmap-xxxhdpi", "ic_launcher.png"], 192)])
  ∧ (∀ t ∈ androidTargets, t.size < t.foreground_size) :=
  ⟨(C8_android_five_densities_three_files ["icons"]).1,
   (C8_android_five_densities_three_files ["icons"]).2.2.2⟩

theorem blend_red_over_transparent (p : Rgba) (hp : p.a = 0) :
    blend ⟨255, 0, 0, 255⟩ p = ⟨255, 0, 0, 255⟩ := by
  simp [blend, hp, truncQ]

theorem ne_of_path_length_ne {w : WriteEv} {e : PngEntry}
    (h : w.path.length ≠ e.out_path.length) : w.path ≠ e.out_path :=
  fun hh => h (congrArg List.length hh)

theorem iosOutDir_length (out_dir : Path) (fsEx : Path → Bool) :
    (iosOutDir out_dir fsEx).length = out_dir.length - 1 + 4 ∨
      (iosOutDir out_dir fsEx).length = out_dir.length + 1 := by
  rw [iosOutDir]
  split
  · left; simp
  · right; simp

theorem androidOutDir_length (out_dir : Path) (cfg : Config)
    (fsEx : Path → Bool) :
    (androidOutDir out_dir cfg fsEx).length = out_dir.length - 1 + 7 ∨
      (androidOutDir out_dir cfg fsEx).length = out_dir.length + 1 := by
  rw [androidOutDir]
  split
  · left; simp
  · right; simp

/-- C6: compositing a fully transparent source over the background color
red `#FF0000` keeps the dimensions and turns every pixel into opaque red
(255, 0, 0, alpha 255); and the composited image feeds exactly the iOS
catalog writes of a full-mode run — the desktop, Android, Appx, `.ico`
and `.icns` artifacts are all derived from the un-composited source, and
no such write lands on an iOS catalog path. -/
theorem C6_compositing_only_for_ios (c : Codecs) (parse : String → Option Srgb)
    (cfg : Config) (fsEx : Path → Bool) (table : List (String × IcnsEntry))
    (out_dir : Path) (s : String) (srgb : Srgb)
    (elems : List (String × Bytes)) (src : Image)
    (hparse : parse s = some srgb)
    (hsrgb : srgbToRgba srgb = ⟨255, 0, 0, 255⟩)
    (hsq : src.width = src.height)
    (htrans : ∀ p ∈ src.pixels, p.a = 0)
    (hicns : icnsBuild c src table = .ok elems) :
    ((compositeOnColor ⟨255, 0, 0, 255⟩ src).width = src.width
    ∧ (compositeOnColor ⟨255, 0, 0, 255⟩ src).height = src.height
    ∧ (compositeOnColor ⟨255, 0, 0, 255⟩ src).pixels.length = src.pixels.length
    ∧ (∀ p ∈ (compositeOnColor ⟨255, 0, 0, 255⟩ src).pixels, p = ⟨255, 0, 0, 255⟩))
  ∧ (command c parse cfg fsEx table out_dir ⟨s, []⟩ (some src) =
      { writes :=
          appxWrites c src out_dir ++
          [{ path := out_dir ++ ["icon.icns"], data := .icns elems },
           { path := out_dir ++ ["icon.ico"], data := .ico (icoFrames c src) }] ++
          ((desktop_entries out_dir ++
              android_entries (androidOutDir out_dir cfg fsEx)).map
            (fun e => resize_and_save_png c src e.size e.out_path) ++
           (ios_entries (iosOutDir out_dir fsEx)).map
            (fun e => resize_and_save_png c
              (compositeOnColor ⟨255, 0, 0, 255⟩ src) e.size e.out_path)),
        result := .ok () })
  ∧ (∀ w ∈ appxWrites c src out_dir ++
        [{ path := out_dir ++ ["icon.icns"], data := FileData.icns elems },
         { path := out_dir ++ ["icon.ico"], data := FileData.ico (icoFrames c src) }] ++
        ((desktop_entries out_dir ++
            android_entries (androidOutDir out_dir cfg fsEx)).map
          (fun e => resize_and_save_png c src e.size e.out_path)),
      ∀ e ∈ ios_entries (iosOutDir out_dir fsEx), w.path ≠ e.out_path) := by
  have hnsq : ¬ src.height ≠ src.width := fun h => h hsq.symm
  refine ⟨⟨rfl, rfl, by simp [compositeOnColor], ?_⟩, ?_, ?_⟩
  · intro p hp
    simp only [compositeOnColor, List.mem_map] at hp
    obtain ⟨q, hq, rfl⟩ := hp
    exact blend_red_over_transparent q (htrans q hq)
  · simp only [command, hparse, hnsq, if_false, ite_not, List.isEmpty_nil,
      if_true, hicns]
    simp [pngStage, hsrgb, hnsq]
  · intro w hw e he
    have heL : e.out_path.length = (iosOutDir out_dir fsEx).length + 1 :=
      mem_ios_entries_path_length _ e he
    apply ne_of_path_length_ne
    rcases List.mem_append.mp hw with hw1 | hw2
    · have hwL : w.path.length = out_dir.length + 1 := by
        rcases List.mem_append.mp hw1 with hwa | hwb
        · exact mem_appxWrites_path_length c src out_dir w hwa
        · rcases List.mem_cons.mp hwb with rfl | hwc
          · simp
          · rcases List.mem_cons.mp hwc with rfl | hwd
            · simp
            · cases hwd
      rw [hwL, heL]
      rcases iosOutDir_length out_dir fsEx with h | h <;> rw [h] <;> omega
    · obtain ⟨e2, he2, rfl⟩ := List.mem_map.mp hw2
      rcases List.mem_append.mp he2 with hd | ha
      · have hwL := mem_desktop_entries_path_length out_dir e2 hd
        simp only [resize_and_save_png] at *
        rw [hwL, heL]
        rcases iosOutDir_length out_dir fsEx with h | h <;> rw [h] <;> omega
      · have hwL := mem_android_entries_path_length
          (androidOutDir out_dir cfg fsEx) e2 ha
        simp only [resize_and_save_png] at *
        rw [hwL, heL]
        rcases iosOutDir_length out_dir fsEx with h | h <;>
          rcases androidOutDir_length out_dir cfg fsEx with h2 | h2 <;>
            rw [h, h2] <;> omega

/-- Witness for C6: compositing the concrete fully transparent two-by-two
source over the color parsed from the string `#FF0000` turns every pixel
into opaque red, and the corresponding full-mode run succeeds. -/
theorem C6_witness :
    ((compositeOnColor ⟨255, 0, 0, 255⟩ transparentImage).pixels =
      [⟨255, 0, 0, 255⟩, ⟨255, 0, 0, 255⟩, ⟨255, 0, 0, 255⟩, ⟨255, 0, 0, 255⟩])
  ∧ (command trivialCodecs cssParseSrgbHex ⟨"app"⟩ (fun _ => false)
      sampleIcnsTable ["icons"] ⟨"#FF0000", []⟩
      (some transparentImage)).result = .ok () := by
  have h := C6_compositing_only_for_ios trivialCodecs cssParseSrgbHex ⟨"app"⟩
    (fun _ => false) sampleIcnsTable ["icons"] "#FF0000"
    ⟨((255 : Nat) : ℚ) / 255, ((0 : Nat) : ℚ) / 255, ((0 : Nat) : ℚ) / 255, 1⟩
    [("ic09", []), ("ic07", [])] transparentImage rfl
    (by norm_num [srgbToRgba, truncQ]; rfl) rfl (by decide) (by decide)
  refine ⟨?_, ?_⟩
  · have hall := h.1.2.2.2
    have : (compositeOnColor ⟨255, 0, 0, 255⟩ transparentImage).pixels.length = 4 := by
      rw [h.1.2.2.1]; rfl
    match hlist : (compositeOnColor ⟨255, 0, 0, 255⟩ transparentImage).pixels with
    | [a, b, c, d] =>
      rw [hlist] at hall
      rw [hall a (by simp), hall b (by simp), hall c (by simp), hall d (by simp)]
    | [] => rw [hlist] at this; cases this
    | [a] => rw [hlist] at this; cases this
    | [a, b] => rw [hlist] at this; cases this
    | [a, b, c] => rw [hlist] at this; cases this
    | a :: b :: c :: d :: e :: rest => rw [hlist] at this; simp at this
  · rw [h.2.1]

end TauriIcon
